import Mathlib

/-!
Verification development for the Kari host agent ("Muscle").

Shallow embedding of the Rust sources under `agent/src/`:
the RPC facade (`server.rs`), the boundary accept loop (`main.rs`),
the release pruner (`sys/cleanup.rs`), the SSL engine (`sys/ssl.rs`),
the secret wrapper (`sys/secrets.rs`), the build runner (`sys/build.rs`)
and the streaming deployment pipeline (`server.rs`).

Pure decision logic is translated directly; filesystem and process
effects are made explicit by passing abstract world/outcome records,
so that every definition is executable on concrete inputs.
-/

namespace Kari

/-- `char_list_starts_with l pat` holds when `pat` is an initial segment
of `l`. -/
def char_list_starts_with : List Char → List Char → Bool
  | _, [] => true
  | [], _ :: _ => false
  | c :: cs, p :: ps => c == p && char_list_starts_with cs ps

/-- `char_list_contains l pat` holds when `pat` occurs contiguously
inside `l`. -/
def char_list_contains (l pat : List Char) : Bool :=
  match l with
  | [] => char_list_starts_with [] pat
  | _ :: rest => char_list_starts_with l pat || char_list_contains rest pat

/-- Substring test used throughout: `contains_sub s sub` holds when `sub`
occurs inside `s` (Rust's `str::contains`). -/
def contains_sub (s sub : String) : Bool :=
  char_list_contains s.toList sub.toList

/-- The unary response message of the proto surface (`AgentResponse`). -/
structure AgentResponse where
  success : Bool
  exit_code : Int
  stdout : String
  stderr : String
  error_message : String
deriving Repr, DecidableEq

/-- `construct_error_response` from `server.rs`: a failed `AgentResponse`
with exit code `-1` and the message copied to `stderr` and `error_message`. -/
def construct_error_response (err_msg : String) : AgentResponse :=
  { success := false
    exit_code := -1
    stdout := ""
    stderr := err_msg
    error_message := err_msg }

/-! ## ExecutePackageCommand (`server.rs`) -/

/-- The command whitelist `ALLOWED_SYS_COMMANDS` from `server.rs`. -/
def ALLOWED_SYS_COMMANDS : List String :=
  ["apt-get", "apt", "dnf", "yum", "rm", "chown", "ln"]

/-- The whitelist as the specification states it (for comparison only). -/
def spec_package_whitelist : List String :=
  ["apt-get", "apt", "dnf", "yum", "zypper"]

/-- A `PackageRequest` message: command plus argument vector. -/
structure PackageRequest where
  command : String
  args : List String
deriving Repr, DecidableEq

/-- Result of the validation stage of `execute_package_command`: either an
error response is returned without any child process, or the binary is
spawned with the given argument vector. -/
inductive PackageOutcome where
  | rejected (resp : AgentResponse)
  | spawn (cmd : String) (args : List String)
deriving Repr, DecidableEq

/-- The validation logic of `execute_package_command` in `server.rs`:
reject commands outside `ALLOWED_SYS_COMMANDS`; reject `rm` whose args
contain `/` (exactly) or `..` (as a substring); otherwise spawn. -/
def execute_package_command (req : PackageRequest) : PackageOutcome :=
  if ALLOWED_SYS_COMMANDS.contains req.command then
    if req.command == "rm" && req.args.any (fun a => a == "/" || contains_sub a "..") then
      .rejected (construct_error_response "Destructive path traversal detected")
    else
      .spawn req.command req.args
  else
    .rejected (construct_error_response "Command rejected by Agent security policy")

/-- `true` iff the request reaches the spawn stage. -/
def package_accepts (req : PackageRequest) : Bool :=
  match execute_package_command req with
  | .spawn _ _ => true
  | .rejected _ => false

/-! ## ManageService (`server.rs`) -/

/-- The supervisor operations dispatched by `manage_service`. -/
inductive ServiceOp where
  | start
  | stop
  | restart
  | reloadDaemon
  | enableAndStart
deriving Repr, DecidableEq

/-- The action-to-operation mapping of the `match req.action` in
`manage_service`: `0..=4` dispatch, everything else falls to the
wildcard arm. -/
def serviceOpOf (action : Int) : Option ServiceOp :=
  if action = 0 then some .start
  else if action = 1 then some .stop
  else if action = 2 then some .restart
  else if action = 3 then some .reloadDaemon
  else if action = 4 then some .enableAndStart
  else none

/-- `manage_service` from `server.rs`, with the supervisor modelled as an
oracle `svc : ServiceOp → Except String Unit`. Returns the response
together with the supervisor operation that was invoked (if any). -/
def manage_service (action : Int) (service_name : String)
    (svc : ServiceOp → Except String Unit) : AgentResponse × Option ServiceOp :=
  match serviceOpOf action with
  | none => (construct_error_response "Invalid service action", none)
  | some op =>
    match svc op with
    | .ok _ =>
      ({ success := true
         exit_code := 0
         stdout := "Service action " ++ toString action ++ " successful"
         stderr := ""
         error_message := "" }, some op)
    | .error e => (construct_error_response e, some op)

/-! ## Boundary accept loop (`main.rs`) -/

/-- Fate of one accepted connection in the `incoming_stream` loop. -/
inductive ConnDecision where
  | handover
  | dropWarn (uid : Nat)
  | dropSilent
deriving Repr, DecidableEq

/-- Per-connection decision of `incoming_stream` in `main.rs`: if the
kernel reports peer credentials, hand the stream over iff the peer uid is
the expected uid or `0`; otherwise log a warning naming the uid and drop.
If `peer_cred()` fails the connection is dropped silently. -/
def accept_decision (expected_uid : Nat) (peer_cred : Option Nat) : ConnDecision :=
  match peer_cred with
  | some u => if u = expected_uid ∨ u = 0 then .handover else .dropWarn u
  | none => .dropSilent

/-- The accept loop over a finite schedule of connections: every
connection is examined, none terminates the loop. -/
def incoming_stream (expected_uid : Nat) (conns : List (Option Nat)) : List ConnDecision :=
  conns.map (accept_decision expected_uid)

/-! ## StreamDeployment (`server.rs`): paths, log channel, pipeline -/

/-- A `DeployRequest` message. -/
structure DeployRequest where
  app_id : String
  domain_name : String
  repo_url : String
  branch : String
  build_command : String
  env_vars : List (String × String)
  trace_id : String
deriving Repr, DecidableEq

/-- `base_dir` as computed at the top of `stream_deployment`:
`format!("{}/{}", self.config.web_root, req.domain_name)` with no
validation of `domain_name`. -/
def stream_deployment_base_dir (web_root : String) (req : DeployRequest) : String :=
  web_root ++ "/" ++ req.domain_name

/-- `release_dir = format!("{}/releases/{}", base_dir, timestamp)`. -/
def stream_deployment_release_dir (web_root timestamp : String) (req : DeployRequest) : String :=
  stream_deployment_base_dir web_root req ++ "/releases/" ++ timestamp

/-- `app_user = format!("kari-app-{}", req.app_id)`, unvalidated. -/
def stream_deployment_app_user (req : DeployRequest) : String :=
  "kari-app-" ++ req.app_id

/-- The whole prelude of `stream_deployment` before the task is spawned:
it is total — the handler has no invalid-argument return for any request
and always constructs these three strings. -/
def stream_deployment_setup (web_root timestamp : String) (req : DeployRequest) :
    String × String × String :=
  (stream_deployment_base_dir web_root req,
   stream_deployment_release_dir web_root timestamp req,
   stream_deployment_app_user req)

/-- A `LogChunk` streamed back to the caller. -/
structure LogChunk where
  content : String
  trace_id : String
deriving Repr, DecidableEq

/-- The bounded mpsc channel, observed from the sender side: capacity,
currently queued chunks, and whether the receiver has been dropped. -/
structure BoundedChannel where
  cap : Nat
  buf : List LogChunk
  closed : Bool
deriving Repr, DecidableEq

/-- The capacity passed to `mpsc::channel` in `stream_deployment`. -/
def DEPLOY_CHANNEL_CAPACITY : Nat := 512

/-- Result of `tx.try_send`. -/
inductive TrySendResult where
  | sent
  | full
  | closedErr
deriving Repr, DecidableEq

/-- `try_send`: fails with `Closed` when the receiver is gone, with
`Full` when `cap` chunks are already queued, else enqueues. -/
def try_send (ch : BoundedChannel) (c : LogChunk) : BoundedChannel × TrySendResult :=
  if ch.closed then (ch, .closedErr)
  else if ch.cap ≤ ch.buf.length then (ch, .full)
  else ({ ch with buf := ch.buf ++ [c] }, .sent)

/-- `send().await`: suspends until the consumer makes room, so while the
receiver is open the chunk is always enqueued (the `Bool` is `true`) and
it errors exactly when the receiver has been dropped. -/
def blocking_send (ch : BoundedChannel) (c : LogChunk) : BoundedChannel × Bool :=
  if ch.closed then (ch, false)
  else ({ ch with buf := ch.buf ++ [c] }, true)

/-- State threaded through the `send_log` closure of `stream_deployment`:
the sender plus the `lines_dropped` counter. -/
structure SendLogState where
  ch : BoundedChannel
  dropped : Nat
deriving Repr, DecidableEq

/-- The `send_log` closure from `stream_deployment`: a `try_send` of the
chunk; on success a dropped-lines notice is emitted (again via
`try_send`) if the counter is positive; on `Full` the chunk is discarded
and the counter incremented; on `Closed` nothing happens. -/
def send_log (trace_id msg : String) (st : SendLogState) : SendLogState :=
  match try_send st.ch ⟨msg, trace_id⟩ with
  | (ch1, .sent) =>
    if 0 < st.dropped then
      ⟨(try_send ch1 ⟨"... [Dropped " ++ toString st.dropped ++
          " lines due to UI latency] ...\n", trace_id⟩).1, 0⟩
    else ⟨ch1, st.dropped⟩
  | (ch1, .full) => ⟨ch1, st.dropped + 1⟩
  | (ch1, .closedErr) => ⟨ch1, st.dropped⟩

/-- One build-output line as chunked by `execute_build` (`build.rs`):
`format!("[OUT] {}\n", line)` resp. `[ERR]`. -/
def reader_chunk (tag trace_id line : String) : LogChunk :=
  ⟨tag ++ line ++ "\n", trace_id⟩

/-- The reader loop of `execute_build`: each line is sent with
`send().await`; when the send errors (receiver dropped) the loop breaks. -/
def stream_lines (tag trace_id : String) (lines : List String) (ch : BoundedChannel) :
    BoundedChannel :=
  match lines with
  | [] => ch
  | l :: ls =>
    match blocking_send ch (reader_chunk tag trace_id l) with
    | (ch2, true) => stream_lines tag trace_id ls ch2
    | (ch2, false) => ch2

/-- Outcome of one manager call inside the deployment task. -/
inductive StageResult where
  | ok
  | err (msg : String)
deriving Repr, DecidableEq

/-- Outcomes of the four manager calls made by the spawned task. -/
structure PipelineOutcomes where
  fetch : StageResult
  jail : StageResult
  build : StageResult
  restart : StageResult
deriving Repr, DecidableEq

/-- Stages of the streaming deployment state machine. -/
inductive Stage where
  | fetching
  | jailing
  | building
  | restarting
  | done
deriving Repr, DecidableEq

/-- Observable effects of one run of the spawned deployment task. -/
structure PipelineTrace where
  stages_run : List Stage
  release_dir_removed : Bool
deriving Repr, DecidableEq

/-- A sender-side state whose channel is full (512 queued chunks) with
the receiver still open. -/
def cex_full_log_state : SendLogState :=
  ⟨⟨DEPLOY_CHANNEL_CAPACITY, List.replicate 512 ⟨"[OUT] line\n", "t-1"⟩, false⟩, 0⟩

/-- The control flow of the task spawned by `stream_deployment`:
a failed clone logs and returns; the result of
`jail_mgr.secure_directory` is discarded (`let _ = ...`), so the task
never branches on it; a failed build removes the release directory, logs
and returns; the restart result is likewise discarded; then the success
marker is sent. -/
def deployment_pipeline (o : PipelineOutcomes) : PipelineTrace :=
  match o.fetch with
  | .err _ => ⟨[.fetching], false⟩
  | .ok =>
    match o.build with
    | .err _ => ⟨[.fetching, .jailing, .building], true⟩
    | .ok => ⟨[.fetching, .jailing, .building, .restarting, .done], false⟩

/-! ## Build runner environment (`build.rs`) -/

/-- The environment received by the child spawned in `execute_build`.
The code configures `Command::new("runuser")....envs(env_vars)` and never
calls `env_clear`, so the child environment is the agent's own (parent)
environment with the entries of the explicit map inserted over it. -/
def child_env (agent_env env_map : List (String × String)) : List (String × String) :=
  agent_env.filter (fun kv => ¬ env_map.any (fun kv2 => kv2.1 == kv.1)) ++ env_map

/-- The child environment as the claim describes it: exactly the
caller-provided map, with no inheritance (for comparison only). -/
def spec_child_env (env_map : List (String × String)) : List (String × String) :=
  env_map

/-! ## Secret wrapper (`secrets.rs`) -/

/-- `ProviderCredential`: the backing bytes of the inner
`Secret<Vec<u8>>`, observed through a leaking accessor. -/
structure ProviderCredential where
  token : List Nat
deriving Repr, DecidableEq

/-- `ProviderCredential::new`: moves the raw bytes into the wrapper. -/
def providerCredential_new (raw_token : List Nat) : ProviderCredential :=
  ⟨raw_token⟩

/-- `s.zeroize()` on a string buffer (zeroize crate): every byte is
overwritten with zero in place. -/
def string_zeroize (s : List Nat) : List Nat :=
  s.map (fun _ => 0)

/-- `ProviderCredential::from_string`: copies the string's bytes into a
vector, zeroizes the source string, wraps the copy. Returns the wrapper
together with the final contents of the source buffer. -/
def providerCredential_from_string (s : List Nat) : ProviderCredential × List Nat :=
  (providerCredential_new s, string_zeroize s)

/-- The `impl Zeroize for ProviderCredential` in `secrets.rs`: its body
is empty (a comment saying the secrecy crate handles it), so the explicit
zeroize call mutates nothing — the backing bytes are unchanged. This is
the only explicit scrub hook the type offers; the `destroy` method that
`git.rs` calls does not exist in `secrets.rs`. -/
def providerCredential_zeroize (c : ProviderCredential) : ProviderCredential :=
  c

/-- Drop of the inner `Secret<Vec<u8>>`: the secrecy crate (an external
dependency, modelled from its documented contract) overwrites the backing
vector with zeroes when the wrapper is dropped. -/
def providerCredential_drop (c : ProviderCredential) : List Nat :=
  c.token.map (fun _ => 0)

/-! ## SSL engine, privkey phase (`ssl.rs`) -/

/-- The option set passed to one `OpenOptions::open` call. -/
structure OpenFlags where
  write : Bool
  create : Bool
  truncate : Bool
  mode : Nat
deriving Repr, DecidableEq

/-- The options `ssl.rs` passes when opening `privkey.pem`:
`.write(true).create(true).truncate(true).mode(0o600)` — the mode travels
in the same `open` system call. -/
def privkey_open_flags : OpenFlags :=
  ⟨true, true, true, 0o600⟩

/-- The privkey file as observable on disk: its mode and contents. -/
structure PrivkeyFile where
  mode : Nat
  content : List Nat
deriving Repr, DecidableEq

/-- Which of the three fallible privkey steps fail, injected as an
abstract world. -/
structure SslWorld where
  open_fails : Bool
  write_fails : Bool
  sync_fails : Bool
deriving Repr, DecidableEq

/-- One observation point of the filesystem: the privkey file if it
exists at that instant. -/
abbrev FsObs := Option PrivkeyFile

/-- The privkey phase of `install_certificate` (`ssl.rs`). The open call
carries `privkey_open_flags`, so the file comes into existence already
truncated and at mode `0o600` — there is no intermediate state with a
looser mode. `write_all` then `sync_all` follow; if the closure returned
an error, `remove_file` unlinks the partial file before the error is
returned. The result lists, in order, every observation point of the
filesystem from before the open to the final state. -/
def install_privkey (w : SslWorld) (secret : List Nat) :
    Except String Unit × FsObs × List FsObs :=
  if w.open_fails then
    (.error "Failed to open privkey file securely", none, [none, none])
  else
    if w.write_fails then
      (.error "Failed to write secret bytes", none,
        [none, some ⟨privkey_open_flags.mode, []⟩, none])
    else
      if w.sync_fails then
        (.error "Failed to sync privkey to disk", none,
          [none, some ⟨privkey_open_flags.mode, []⟩,
           some ⟨privkey_open_flags.mode, secret⟩, none])
      else
        (.ok (), some ⟨privkey_open_flags.mode, secret⟩,
          [none, some ⟨privkey_open_flags.mode, []⟩,
           some ⟨privkey_open_flags.mode, secret⟩])

/-! ## Release pruner (`cleanup.rs`) -/

/-- One directory entry of `read_dir(releases_dir)`. -/
structure FsEntry where
  name : String
  isDir : Bool
deriving Repr, DecidableEq

/-- Abstract snapshot of the filesystem as `prune_old_releases` observes
it: whether the releases directory exists and is readable, its entries,
the canonicalized target of the sibling `current` symlink (`none` when
`canonicalize` fails), per-path canonicalization (`none` when it fails,
in which case the code falls back to the raw path), and whether
`remove_dir_all` succeeds on a path. -/
structure ReleasesFs where
  dirExists : Bool
  readOk : Bool
  entries : List FsEntry
  currentTarget : Option String
  canonical : String → Option String
  removeOk : String → Bool

/-- The failsafe used when `current` cannot be canonicalized: a path
that cannot match any real release. -/
def ACTIVE_SENTINEL : String := "/dev/null/invalid"

/-- `active_release_target` in `cleanup.rs`:
`fs::canonicalize(current).unwrap_or(PathBuf::from("/dev/null/invalid"))`. -/
def active_target (fs : ReleasesFs) : String :=
  fs.currentTarget.getD ACTIVE_SENTINEL

/-- The strict timestamp validation:
`name.len() == 14 && name.chars().all(is_ascii_digit)`. -/
def is_valid_timestamp (s : String) : Bool :=
  s.length == 14 && s.toList.all Char.isDigit

/-- Lexicographic order on char lists by code point; for the UTF-8
strings compared here this coincides with Rust's byte-wise path order. -/
def str_list_le : List Char → List Char → Bool
  | [], _ => true
  | _ :: _, [] => false
  | a :: as, b :: bs =>
    if a.toNat < b.toNat then true
    else if b.toNat < a.toNat then false
    else str_list_le as bs

/-- Lexicographic order on strings (the order `paths.sort()` uses for
sibling paths). -/
def string_le (a b : String) : Bool :=
  str_list_le a.toList b.toList

/-- Insert a path into an already sorted list, keeping it sorted. -/
def ordered_insert (x : String) : List String → List String
  | [] => [x]
  | y :: ys => if string_le x y then x :: y :: ys else y :: ordered_insert x ys

/-- `paths.sort()`: sort ascending, oldest timestamp first. -/
def sort_paths : List String → List String
  | [] => []
  | x :: xs => ordered_insert x (sort_paths xs)

/-- The unsorted candidates: directory entries with a valid timestamp
name, as full paths under `releases_dir`. -/
def release_candidates (fs : ReleasesFs) (releases_dir : String) : List String :=
  (fs.entries.filter (fun e => e.isDir && is_valid_timestamp e.name)).map
    (fun e => releases_dir ++ "/" ++ e.name)

/-- The candidate list after `paths.sort()`: all paths share the parent
`releases_dir`, so path order is file-name order. -/
def release_paths (fs : ReleasesFs) (releases_dir : String) : List String :=
  sort_paths (release_candidates fs releases_dir)

/-- Observable outcome of a pruner run: the returned counter plus the
paths actually removed and the candidates skipped as active. -/
structure PruneResult where
  deleted_count : Nat
  deleted : List String
  skipped_active : List String
deriving Repr, DecidableEq

/-- The body of the per-candidate loop in `prune_old_releases`:
canonicalize the candidate (falling back to the raw path), skip it when
it equals the active target, otherwise `remove_dir_all` — counting only
successful removals (failures are logged and skipped). -/
def prune_step (fs : ReleasesFs) (acc : PruneResult) (path : String) : PruneResult :=
  if (fs.canonical path).getD path = active_target fs then
    { acc with skipped_active := acc.skipped_active ++ [path] }
  else if fs.removeOk path then
    { acc with deleted_count := acc.deleted_count + 1, deleted := acc.deleted ++ [path] }
  else
    acc

/-- `prune_old_releases` from `cleanup.rs`: return 0 when the directory
does not exist; error when it cannot be read; return 0 when the
candidate count is at most `keep_count`; otherwise process exactly the
slice `sorted[0 .. count - keep_count]` with the loop above. -/
def prune_old_releases (fs : ReleasesFs) (releases_dir : String) (keep_count : Nat) :
    Except String PruneResult :=
  if fs.dirExists then
    if fs.readOk then
      let paths := release_paths fs releases_dir
      if paths.length ≤ keep_count then .ok ⟨0, [], []⟩
      else .ok ((paths.take (paths.length - keep_count)).foldl (prune_step fs) ⟨0, [], []⟩)
    else .error "Failed to read releases directory"
  else .ok ⟨0, [], []⟩

/-- A concrete snapshot: three valid releases, `current` resolving to the
oldest, every canonicalization succeeding on the path itself, every
removal succeeding. -/
def cex_prune_fs : ReleasesFs :=
  { dirExists := true
    readOk := true
    entries := [⟨"20240103000000", true⟩, ⟨"20240101000000", true⟩, ⟨"20240102000000", true⟩]
    currentTarget := some "/r/20240101000000"
    canonical := fun p => some p
    removeOk := fun _ => true }

end Kari

namespace Kari

/-- Claim C2: every connection handed to the RPC framework has
kernel-reported peer uid equal to the expected uid or 0; any connection
with another peer uid is not handed over — the decision is a warning
naming exactly the offending uid — and the loop processes every
connection (it continues after a rejection). -/
theorem boundary_peer_uid_gate (expected_uid : Nat) (conns : List (Option Nat)) :
    (∀ u : Nat,
      (accept_decision expected_uid (some u) = .handover ↔ (u = expected_uid ∨ u = 0)) ∧
      (¬ (u = expected_uid ∨ u = 0) → accept_decision expected_uid (some u) = .dropWarn u)) ∧
    (incoming_stream expected_uid conns).length = conns.length := by
  constructor
  · intro u
    constructor
    · constructor
      · intro h
        by_contra hc
        simp [accept_decision, hc] at h
      · intro h
        simp [accept_decision, h]
    · intro h
      simp [accept_decision, h]
  · simp [incoming_stream]

/-- Witness for C2: with expected uid 1001, a peer of uid 1002 is not
handed over but rejected with a warning naming 1002, while uid 1001 and
uid 0 are handed over; the loop length is preserved. -/
theorem boundary_peer_uid_gate_witness :
    accept_decision 1001 (some 1002) = .dropWarn 1002 ∧
    accept_decision 1001 (some 1001) = .handover ∧
    accept_decision 1001 (some 0) = .handover ∧
    (incoming_stream 1001 [some 1002, some 1001]).length = 2 := by
  refine ⟨?_, ?_, ?_, ?_⟩
  · exact ((boundary_peer_uid_gate 1001 []).1 1002).2 (by decide)
  · exact ((boundary_peer_uid_gate 1001 []).1 1001).1.mpr (by decide)
  · exact ((boundary_peer_uid_gate 1001 []).1 0).1.mpr (by decide)
  · exact (boundary_peer_uid_gate 1001 [some 1002, some 1001]).2

/-- Claim C3 (counterexample): the claim's whitelist and message do not
match the code. `zypper` is in the claimed whitelist but the code rejects
it (and with the message "Command rejected by Agent security policy",
not "Command not in security whitelist"), while `rm` is outside the
claimed whitelist but the code accepts it and spawns a child. -/
theorem package_whitelist_cex :
    package_accepts ⟨"zypper", []⟩ = false ∧
    spec_package_whitelist.contains "zypper" = true ∧
    execute_package_command ⟨"zypper", []⟩ =
      .rejected (construct_error_response "Command rejected by Agent security policy") ∧
    package_accepts ⟨"rm", ["somefile"]⟩ = true ∧
    spec_package_whitelist.contains "rm" = false := by
  decide

/-- Claim C3 (amended): a command is accepted only if it is in
`ALLOWED_SYS_COMMANDS` = {apt-get, apt, dnf, yum, rm, chown, ln}; any
command outside that list is rejected with a failed response carrying the
message "Command rejected by Agent security policy" (success = false,
exit code -1) and no child process is spawned; a whitelisted command is
spawned unless it is `rm` with an argument that is `/` or contains
`..`, which is rejected as "Destructive path traversal detected". -/
theorem package_whitelist_amended (req : PackageRequest) :
    (package_accepts req = true → ALLOWED_SYS_COMMANDS.contains req.command = true) ∧
    (ALLOWED_SYS_COMMANDS.contains req.command = false →
      execute_package_command req =
        .rejected (construct_error_response "Command rejected by Agent security policy")) ∧
    ((req.command == "rm" && req.args.any (fun a => a == "/" || contains_sub a "..")) = true →
      execute_package_command req =
        .rejected (construct_error_response "Destructive path traversal detected")) ∧
    (ALLOWED_SYS_COMMANDS.contains req.command = true →
      (req.command == "rm" && req.args.any (fun a => a == "/" || contains_sub a "..")) = false →
      execute_package_command req = .spawn req.command req.args) := by
  refine ⟨?_, ?_, ?_, ?_⟩
  · intro h
    by_contra hc
    unfold package_accepts execute_package_command at h
    rw [if_neg hc] at h
    exact Bool.noConfusion h
  · intro h
    unfold execute_package_command
    rw [if_neg (by simpa using h)]
  · intro h
    have hcmd : req.command = "rm" := by
      have h1 := (Bool.and_eq_true _ _).mp h
      simpa using h1.1
    have hmem : ALLOWED_SYS_COMMANDS.contains req.command = true := by
      rw [hcmd]; decide
    unfold execute_package_command
    rw [if_pos hmem, if_pos h]
  · intro h1 h2
    unfold execute_package_command
    rw [if_pos h1, if_neg (by simp [h2])]

/-- Witness for the amended C3: `curl` is rejected with the code's
message and no spawn; `rm ../x` is rejected as destructive path
traversal; `apt-get install nginx` reaches the spawn stage. -/
theorem package_whitelist_amended_witness :
    execute_package_command ⟨"curl", ["http://x"]⟩ =
      .rejected (construct_error_response "Command rejected by Agent security policy") ∧
    execute_package_command ⟨"rm", ["../x"]⟩ =
      .rejected (construct_error_response "Destructive path traversal detected") ∧
    execute_package_command ⟨"apt-get", ["install", "nginx"]⟩ =
      .spawn "apt-get" ["install", "nginx"] := by
  refine ⟨?_, ?_, ?_⟩
  · exact (package_whitelist_amended ⟨"curl", ["http://x"]⟩).2.1 (by decide)
  · exact (package_whitelist_amended ⟨"rm", ["../x"]⟩).2.2.1 (by decide)
  · exact (package_whitelist_amended ⟨"apt-get", ["install", "nginx"]⟩).2.2.2
      (by decide) (by decide)

/-- Claim C10: a `ManageService` action outside `0..=4` yields the error
response "Invalid service action" (success = false, exit code -1) and no
supervisor operation is invoked; actions 0-4 dispatch to the matching
supervisor operation, and a successful dispatch yields success = true
with exit code 0. -/
theorem manage_service_dispatch (action : Int) (name : String)
    (svc : ServiceOp → Except String Unit) :
    ((action < 0 ∨ 4 < action) →
      manage_service action name svc =
        (construct_error_response "Invalid service action", none)) ∧
    (∀ op, serviceOpOf action = some op →
      (manage_service action name svc).2 = some op ∧
      (svc op = .ok () →
        (manage_service action name svc).1.success = true ∧
        (manage_service action name svc).1.exit_code = 0)) ∧
    (serviceOpOf 0 = some .start ∧ serviceOpOf 1 = some .stop ∧
     serviceOpOf 2 = some .restart ∧ serviceOpOf 3 = some .reloadDaemon ∧
     serviceOpOf 4 = some .enableAndStart) := by
  refine ⟨?_, ?_, by decide⟩
  · intro h
    have h0 : serviceOpOf action = none := by
      unfold serviceOpOf
      rw [if_neg (by omega), if_neg (by omega), if_neg (by omega),
        if_neg (by omega), if_neg (by omega)]
    simp [manage_service, h0]
  · intro op hop
    constructor
    · cases hsvc : svc op <;> simp [manage_service, hop, hsvc]
    · intro hok
      simp [manage_service, hop, hok]

/-- Witness for C10: action 7 yields the invalid-action error response
without touching the supervisor; action 2 with a succeeding supervisor
dispatches `restart` and reports success with exit code 0. -/
theorem manage_service_dispatch_witness :
    manage_service 7 "nginx" (fun _ => .ok ()) =
      (construct_error_response "Invalid service action", none) ∧
    (manage_service 2 "nginx" (fun _ => .ok ())).2 = some .restart ∧
    (manage_service 2 "nginx" (fun _ => .ok ())).1.success = true ∧
    (manage_service 2 "nginx" (fun _ => .ok ())).1.exit_code = 0 := by
  refine ⟨?_, ?_, ?_, ?_⟩
  · exact (manage_service_dispatch 7 "nginx" (fun _ => .ok ())).1 (by omega)
  · exact ((manage_service_dispatch 2 "nginx" (fun _ => .ok ())).2.1 .restart (by decide)).1
  · exact (((manage_service_dispatch 2 "nginx" (fun _ => .ok ())).2.1 .restart (by decide)).2 rfl).1
  · exact (((manage_service_dispatch 2 "nginx" (fun _ => .ok ())).2.1 .restart (by decide)).2 rfl).2

/-- Claim C1 (code evaluated at the failing input): for the request with
`domain_name = "../etc"` and `app_id = "x"`, `stream_deployment` performs
no validation: it constructs `base_dir = "/var/www/kari/../etc"` and a
release directory incorporating the traversal string (it contains `..`),
instead of failing with an invalid-argument error. -/
theorem path_traversal_unchecked :
    stream_deployment_setup "/var/www/kari" "20260101000000"
        ⟨"x", "../etc", "https://example.com/r.git", "main", "true", [], "t-1"⟩ =
      ("/var/www/kari/../etc",
       "/var/www/kari/../etc/releases/20260101000000",
       "kari-app-x") ∧
    contains_sub "/var/www/kari/../etc/releases/20260101000000" ".." = true := by
  exact ⟨rfl, by decide⟩

set_option maxRecDepth 4000 in
/-- Claim C7 (counterexample): with the channel at its capacity of 512
and the receiver still open, the `send_log` helper of
`stream_deployment` uses `try_send`, so the stage marker
"Starting Isolated Build Process..." is dropped (the buffer is unchanged
and the dropped-lines counter becomes 1) — a slow consumer does not
throttle the stage markers, it loses them. -/
theorem deploy_log_drop_cex :
    cex_full_log_state.ch.closed = false ∧
    cex_full_log_state.ch.cap = DEPLOY_CHANNEL_CAPACITY ∧
    (send_log "t-1" "Starting Isolated Build Process...\n" cex_full_log_state).ch.buf =
      cex_full_log_state.ch.buf ∧
    (send_log "t-1" "Starting Isolated Build Process...\n" cex_full_log_state).dropped = 1 := by
  have hfull : try_send cex_full_log_state.ch
      ⟨"Starting Isolated Build Process...\n", "t-1"⟩ =
      (cex_full_log_state.ch, .full) := by
    rw [try_send, if_neg (by simp [cex_full_log_state]),
      if_pos (by simp [cex_full_log_state, DEPLOY_CHANNEL_CAPACITY])]
  refine ⟨rfl, rfl, ?_, ?_⟩ <;> simp only [send_log, hfull]
  rfl

/-- Claim C7 (amended): the log channel is bounded at capacity 512;
build stdout/stderr lines are sent with the blocking `send().await`, so
while the receiver is open every build line is enqueued in order and
none is dropped; the stage markers, however, go through the non-blocking
`try_send` closure, which on a full channel discards the marker and
increments the dropped-lines counter. -/
theorem deploy_log_backpressure_amended (tag tid msg : String) (lines : List String)
    (ch : BoundedChannel) (st : SendLogState) :
    DEPLOY_CHANNEL_CAPACITY = 512 ∧
    (ch.closed = false →
      stream_lines tag tid lines ch =
        { ch with buf := ch.buf ++ lines.map (reader_chunk tag tid) }) ∧
    (st.ch.closed = false → st.ch.cap ≤ st.ch.buf.length →
      send_log tid msg st = ⟨st.ch, st.dropped + 1⟩) := by
  refine ⟨rfl, ?_, ?_⟩
  · intro h
    induction lines generalizing ch with
    | nil => simp [stream_lines]
    | cons l ls ih =>
      have hsend : blocking_send ch (reader_chunk tag tid l) =
          ({ ch with buf := ch.buf ++ [reader_chunk tag tid l] }, true) := by
        rw [blocking_send, if_neg (by simp [h])]
      simp only [stream_lines, hsend]
      rw [ih { ch with buf := ch.buf ++ [reader_chunk tag tid l] } (by simp [h])]
      simp
  · intro h1 h2
    have hfull : try_send st.ch ⟨msg, tid⟩ = (st.ch, .full) := by
      rw [try_send, if_neg (by simp [h1]), if_pos h2]
    simp only [send_log, hfull]

/-- Witness for the amended C7: two build lines stream through an open
channel intact and in order; a stage marker on a full open channel is
dropped with the counter incremented. -/
theorem deploy_log_backpressure_amended_witness :
    stream_lines "[OUT] " "t-1" ["a", "b"] ⟨512, [], false⟩ =
      { cap := 512,
        buf := [⟨"[OUT] a\n", "t-1"⟩, ⟨"[OUT] b\n", "t-1"⟩],
        closed := false } ∧
    send_log "t-1" "marker\n" ⟨⟨1, [⟨"x\n", "t-1"⟩], false⟩, 0⟩ =
      ⟨⟨1, [⟨"x\n", "t-1"⟩], false⟩, 1⟩ := by
  constructor
  · have h := (deploy_log_backpressure_amended "[OUT] " "t-1" "marker\n" ["a", "b"]
      ⟨512, [], false⟩ ⟨⟨1, [], false⟩, 0⟩).2.1 rfl
    simpa [reader_chunk] using h
  · exact (deploy_log_backpressure_amended "" "t-1" "marker\n" []
      ⟨0, [], false⟩ ⟨⟨1, [⟨"x\n", "t-1"⟩], false⟩, 0⟩).2.2 rfl (by decide)

/-- Claim C8 (counterexample): a run in which `secure_directory` fails
(for example "Failed to chown application directory") but clone, build
and restart succeed still executes every stage: the Building stage runs
and the service restart is attempted, instead of the task returning at
the Jailing stage. -/
theorem jailing_failure_ignored_cex :
    (deployment_pipeline
        ⟨.ok, .err "Failed to chown application directory", .ok, .ok⟩).stages_run =
      [.fetching, .jailing, .building, .restarting, .done] ∧
    Stage.building ∈ (deployment_pipeline
        ⟨.ok, .err "Failed to chown application directory", .ok, .ok⟩).stages_run := by
  exact ⟨rfl, by decide⟩

/-- Claim C8 (amended): the spawned deployment task discards the result
of `jail_mgr.secure_directory` (`let _ = ...`): its observable behaviour
— stages run, logs, release-directory cleanup — is identical for any two
jailing outcomes, given the same clone and build outcomes; a jailing
failure is neither logged nor does it stop the pipeline. -/
theorem jailing_result_discarded (o1 o2 : PipelineOutcomes)
    (hf : o1.fetch = o2.fetch) (hb : o1.build = o2.build) :
    deployment_pipeline o1 = deployment_pipeline o2 := by
  obtain ⟨f1, j1, b1, r1⟩ := o1
  obtain ⟨f2, j2, b2, r2⟩ := o2
  simp only [] at hf hb
  subst hf hb
  cases f1 <;> cases b1 <;> rfl

/-- Witness for the amended C8: the run with a failed jailing stage has
exactly the same trace as the fully successful run. -/
theorem jailing_result_discarded_witness :
    deployment_pipeline ⟨.ok, .err "Failed to chown application directory", .ok, .ok⟩ =
      deployment_pipeline ⟨.ok, .ok, .ok, .ok⟩ :=
  jailing_result_discarded _ _ rfl rfl

/-- Claim C9 (code evaluated at the failing input): `execute_build`
configures the child with `.envs(env_vars)` but never `.env_clear()`, so
the child inherits the agent's environment. Two runs with the same
(empty) environment map but different agent environments give the child
different environments, and the agent's variable `KARI_SECRET=hunter2`
reaches the child — unlike `spec_child_env`, which is the same map in
both runs. -/
theorem build_env_inherited :
    child_env [("KARI_SECRET", "hunter2")] [] = [("KARI_SECRET", "hunter2")] ∧
    child_env [] [] = [] ∧
    child_env [("KARI_SECRET", "hunter2")] [] ≠ child_env [] [] ∧
    ("KARI_SECRET", "hunter2") ∈ child_env [("KARI_SECRET", "hunter2")] [] ∧
    spec_child_env [] = spec_child_env [] := by
  refine ⟨rfl, rfl, by decide, by decide, rfl⟩

/-- Claim C6 (code evaluated at the failing input): constructing a
credential from the string "hun" zeroes the source buffer and drop
zeroes the backing bytes (these parts hold), but the only explicit scrub
the wrapper offers — its empty `Zeroize` impl, standing in for the
`destroy` that `git.rs` calls but `secrets.rs` never defines — leaves
the backing bytes `[104, 117, 110]` intact, not zero. -/
theorem secret_explicit_destroy_noop :
    (providerCredential_from_string [104, 117, 110]).2 = [0, 0, 0] ∧
    providerCredential_drop (providerCredential_from_string [104, 117, 110]).1 = [0, 0, 0] ∧
    (providerCredential_zeroize
        (providerCredential_from_string [104, 117, 110]).1).token = [104, 117, 110] ∧
    (providerCredential_zeroize
        (providerCredential_from_string [104, 117, 110]).1).token ≠ [0, 0, 0] := by
  refine ⟨rfl, rfl, rfl, by decide⟩

/-- Claim C5: the privkey open call carries create+truncate+write and
mode `0o600` together; at every observation point, whenever
`privkey.pem` exists its mode is `0o600`; and if writing or syncing
fails after a successful open, the final state has no privkey file and
the result is an error. -/
theorem install_certificate_privkey_spec (w : SslWorld) (secret : List Nat) :
    privkey_open_flags = ⟨true, true, true, 0o600⟩ ∧
    (∀ obs ∈ (install_privkey w secret).2.2, ∀ f, obs = some f → f.mode = 0o600) ∧
    (w.open_fails = false → (w.write_fails = true ∨ w.sync_fails = true) →
      (install_privkey w secret).2.1 = none ∧
      ∃ e, (install_privkey w secret).1 = .error e) ∧
    (w.open_fails = false → w.write_fails = false → w.sync_fails = false →
      (install_privkey w secret).1 = .ok () ∧
      (install_privkey w secret).2.1 = some ⟨0o600, secret⟩) := by
  obtain ⟨o, wr, s⟩ := w
  refine ⟨rfl, ?_, ?_, ?_⟩
  · cases o <;> cases wr <;> cases s <;>
      simp [install_privkey, privkey_open_flags]
  · intro h1 h2
    subst h1
    rcases h2 with h | h <;> subst h
    · exact ⟨rfl, "Failed to write secret bytes", rfl⟩
    · cases wr
      · exact ⟨rfl, "Failed to sync privkey to disk", rfl⟩
      · exact ⟨rfl, "Failed to write secret bytes", rfl⟩
  · intro h1 h2 h3
    subst h1; subst h2; subst h3
    exact ⟨rfl, rfl⟩

/-- Witness for C5: with a failing sync and secret bytes `[1, 2, 3]`,
every observed state of `privkey.pem` has mode `0o600`, the final state
has no privkey file and the phase returns an error; with no failures the
file ends at mode `0o600` holding the secret bytes. -/
theorem install_certificate_privkey_spec_witness :
    (∀ obs ∈ (install_privkey ⟨false, false, true⟩ [1, 2, 3]).2.2,
      ∀ f, obs = some f → f.mode = 0o600) ∧
    (install_privkey ⟨false, false, true⟩ [1, 2, 3]).2.1 = none ∧
    (∃ e, (install_privkey ⟨false, false, true⟩ [1, 2, 3]).1 = .error e) ∧
    (install_privkey ⟨false, false, false⟩ [1, 2, 3]).2.1 = some ⟨0o600, [1, 2, 3]⟩ := by
  refine ⟨(install_certificate_privkey_spec ⟨false, false, true⟩ [1, 2, 3]).2.1, ?_, ?_, ?_⟩
  · exact ((install_certificate_privkey_spec ⟨false, false, true⟩ [1, 2, 3]).2.2.1
      rfl (Or.inr rfl)).1
  · exact ((install_certificate_privkey_spec ⟨false, false, true⟩ [1, 2, 3]).2.2.1
      rfl (Or.inr rfl)).2
  · exact ((install_certificate_privkey_spec ⟨false, false, false⟩ [1, 2, 3]).2.2.2
      rfl rfl rfl).2

theorem str_list_le_total (a : List Char) :
    ∀ b, str_list_le a b = true ∨ str_list_le b a = true := by
  induction a with
  | nil => intro b; left; rfl
  | cons x xs ih =>
    intro b
    cases b with
    | nil => right; rfl
    | cons y ys =>
      by_cases h1 : x.toNat < y.toNat
      · left; simp [str_list_le, h1]
      · by_cases h2 : y.toNat < x.toNat
        · right; simp [str_list_le, h2]
        · rcases ih ys with h | h
          · left; simp [str_list_le, h1, h2, h]
          · right; simp [str_list_le, h1, h2, h]

theorem str_list_le_trans (a : List Char) :
    ∀ b c, str_list_le a b = true → str_list_le b c = true → str_list_le a c = true := by
  induction a with
  | nil => intro b c _ _; rfl
  | cons x xs ih =>
    intro b c h1 h2
    cases b with
    | nil => simp [str_list_le] at h1
    | cons y ys =>
      cases c with
      | nil => simp [str_list_le] at h2
      | cons z zs =>
        by_cases hxy : x.toNat < y.toNat
        · by_cases hyz : y.toNat < z.toNat
          · simp [str_list_le, Nat.lt_trans hxy hyz]
          · by_cases hzy : z.toNat < y.toNat
            · simp [str_list_le, hyz, hzy] at h2
            · have heq : y.toNat = z.toNat :=
                Nat.le_antisymm (Nat.le_of_not_lt hzy) (Nat.le_of_not_lt hyz)
              simp [str_list_le, heq ▸ hxy]
        · by_cases hyx : y.toNat < x.toNat
          · simp [str_list_le, hxy, hyx] at h1
          · have hxyeq : x.toNat = y.toNat :=
              Nat.le_antisymm (Nat.le_of_not_lt hyx) (Nat.le_of_not_lt hxy)
            simp only [str_list_le, if_neg hxy, if_neg hyx] at h1
            by_cases hyz : y.toNat < z.toNat
            · simp [str_list_le, hxyeq ▸ hyz]
            · by_cases hzy : z.toNat < y.toNat
              · simp [str_list_le, hyz, hzy] at h2
              · simp only [str_list_le, if_neg hyz, if_neg hzy] at h2
                have hxz : ¬ x.toNat < z.toNat := by rw [hxyeq]; exact hyz
                have hzx : ¬ z.toNat < x.toNat := by rw [hxyeq]; exact hzy
                simp only [str_list_le, if_neg hxz, if_neg hzx]
                exact ih ys zs h1 h2

theorem string_le_total (a b : String) : string_le a b = true ∨ string_le b a = true :=
  str_list_le_total a.toList b.toList

theorem string_le_trans (a b c : String)
    (h1 : string_le a b = true) (h2 : string_le b c = true) : string_le a c = true :=
  str_list_le_trans a.toList b.toList c.toList h1 h2

theorem mem_ordered_insert (x q : String) (l : List String) :
    q ∈ ordered_insert x l ↔ q = x ∨ q ∈ l := by
  induction l with
  | nil => simp [ordered_insert]
  | cons y ys ih =>
    by_cases h : string_le x y = true
    · rw [ordered_insert, if_pos h]
      simp [List.mem_cons]
    · rw [ordered_insert, if_neg h]
      simp only [List.mem_cons, ih]
      tauto

theorem ordered_insert_perm (x : String) (l : List String) :
    List.Perm (ordered_insert x l) (x :: l) := by
  induction l with
  | nil => exact List.Perm.refl [x]
  | cons y ys ih =>
    by_cases h : string_le x y = true
    · rw [ordered_insert, if_pos h]
    · rw [ordered_insert, if_neg h]
      exact (ih.cons y).trans (List.Perm.swap x y ys)

theorem sort_paths_perm (l : List String) : List.Perm (sort_paths l) l := by
  induction l with
  | nil => exact List.Perm.refl []
  | cons x xs ih =>
    exact (ordered_insert_perm x (sort_paths xs)).trans (ih.cons x)

theorem ordered_insert_pairwise (x : String) (l : List String)
    (h : List.Pairwise (fun a b => string_le a b = true) l) :
    List.Pairwise (fun a b => string_le a b = true) (ordered_insert x l) := by
  induction l with
  | nil => simp [ordered_insert]
  | cons y ys ih =>
    rcases List.pairwise_cons.mp h with ⟨hy, hys⟩
    by_cases hle : string_le x y = true
    · rw [ordered_insert, if_pos hle]
      refine List.pairwise_cons.mpr ⟨?_, h⟩
      intro b hb
      rcases List.mem_cons.mp hb with rfl | hb2
      · exact hle
      · exact string_le_trans x y b hle (hy b hb2)
    · rw [ordered_insert, if_neg hle]
      refine List.pairwise_cons.mpr ⟨?_, ih hys⟩
      intro b hb
      rcases (mem_ordered_insert x b ys).mp hb with rfl | hb2
      · rcases string_le_total y b with h2 | h2
        · exact h2
        · exact absurd h2 hle
      · exact hy b hb2

theorem sort_paths_pairwise (l : List String) :
    List.Pairwise (fun a b => string_le a b = true) (sort_paths l) := by
  induction l with
  | nil => exact List.Pairwise.nil
  | cons x xs ih => exact ordered_insert_pairwise x (sort_paths xs) ih

theorem prune_step_count (fs : ReleasesFs) (acc : PruneResult) (p : String)
    (h : acc.deleted_count = acc.deleted.length) :
    (prune_step fs acc p).deleted_count = (prune_step fs acc p).deleted.length := by
  unfold prune_step
  split
  · simpa using h
  · split
    · simp [h]
    · simpa using h

theorem prune_step_deleted_mono (fs : ReleasesFs) (acc : PruneResult) (p q : String)
    (h : q ∈ acc.deleted) : q ∈ (prune_step fs acc p).deleted := by
  unfold prune_step
  split
  · simpa using h
  · split
    · simp [h]
    · simpa using h

theorem prune_step_skipped_mono (fs : ReleasesFs) (acc : PruneResult) (p q : String)
    (h : q ∈ acc.skipped_active) : q ∈ (prune_step fs acc p).skipped_active := by
  unfold prune_step
  split
  · simp [h]
  · split
    · simpa using h
    · simpa using h

theorem prune_step_deleted_sub (fs : ReleasesFs) (acc : PruneResult) (p q : String)
    (h : q ∈ (prune_step fs acc p).deleted) :
    q ∈ acc.deleted ∨
      (q = p ∧ fs.removeOk p = true ∧ (fs.canonical p).getD p ≠ active_target fs) := by
  unfold prune_step at h
  split at h
  · exact .inl h
  · next hact =>
    split at h
    · next hrm =>
      simp only [List.mem_append, List.mem_singleton] at h
      rcases h with h | h
      · exact .inl h
      · exact .inr ⟨h, hrm, hact⟩
    · exact .inl h

theorem prune_step_skip_self (fs : ReleasesFs) (acc : PruneResult) (p : String)
    (h : (fs.canonical p).getD p = active_target fs) :
    p ∈ (prune_step fs acc p).skipped_active := by
  unfold prune_step
  rw [if_pos h]
  simp

theorem prune_step_delete_self (fs : ReleasesFs) (acc : PruneResult) (p : String)
    (h1 : (fs.canonical p).getD p ≠ active_target fs) (h2 : fs.removeOk p = true) :
    p ∈ (prune_step fs acc p).deleted := by
  unfold prune_step
  rw [if_neg h1, if_pos h2]
  simp

theorem prune_foldl_spec (fs : ReleasesFs) (ps : List String) (acc : PruneResult) :
    (acc.deleted_count = acc.deleted.length →
      (ps.foldl (prune_step fs) acc).deleted_count =
        (ps.foldl (prune_step fs) acc).deleted.length) ∧
    (∀ q, q ∈ (ps.foldl (prune_step fs) acc).deleted → q ∈ acc.deleted ∨
      (q ∈ ps ∧ fs.removeOk q = true ∧ (fs.canonical q).getD q ≠ active_target fs)) ∧
    (∀ q, q ∈ acc.skipped_active → q ∈ (ps.foldl (prune_step fs) acc).skipped_active) ∧
    (∀ q, q ∈ acc.deleted → q ∈ (ps.foldl (prune_step fs) acc).deleted) ∧
    (∀ q, q ∈ ps → (fs.canonical q).getD q = active_target fs →
      q ∈ (ps.foldl (prune_step fs) acc).skipped_active) ∧
    (∀ q, q ∈ ps → (fs.canonical q).getD q ≠ active_target fs → fs.removeOk q = true →
      q ∈ (ps.foldl (prune_step fs) acc).deleted) := by
  induction ps generalizing acc with
  | nil =>
    refine ⟨fun h => h, fun q h => .inl h, fun q h => h, fun q h => h, ?_, ?_⟩
    · intro q h; cases h
    · intro q h; cases h
  | cons p ps ih =>
    simp only [List.foldl_cons]
    refine ⟨?_, ?_, ?_, ?_, ?_, ?_⟩
    · intro h
      exact (ih (prune_step fs acc p)).1 (prune_step_count fs acc p h)
    · intro q h
      rcases (ih (prune_step fs acc p)).2.1 q h with h1 | h2
      · rcases prune_step_deleted_sub fs acc p q h1 with ha | hb
        · exact .inl ha
        · exact .inr ⟨hb.1 ▸ List.mem_cons_self p ps, hb.1 ▸ hb.2.1, hb.1 ▸ hb.2.2⟩
      · exact .inr ⟨List.mem_cons_of_mem p h2.1, h2.2⟩
    · intro q h
      exact (ih (prune_step fs acc p)).2.2.1 q (prune_step_skipped_mono fs acc p q h)
    · intro q h
      exact (ih (prune_step fs acc p)).2.2.2.1 q (prune_step_deleted_mono fs acc p q h)
    · intro q hq hact
      rcases List.mem_cons.mp hq with rfl | hmem
      · exact (ih (prune_step fs acc q)).2.2.1 q (prune_step_skip_self fs acc q hact)
      · exact (ih (prune_step fs acc p)).2.2.2.2.1 q hmem hact
    · intro q hq hact hrm
      rcases List.mem_cons.mp hq with rfl | hmem
      · exact (ih (prune_step fs acc q)).2.2.2.1 q (prune_step_delete_self fs acc q hact hrm)
      · exact (ih (prune_step fs acc p)).2.2.2.2.2 q hmem hact hrm

/-- Claim C4: a non-existent releases directory, or a candidate count at
most `keep_count`, yields 0 with nothing deleted; otherwise the
deletion candidates are exactly the first `count - keep_count` entries of
the sorted (ascending, hence lexicographically smallest first) candidate
list; every candidate whose canonicalized path equals the canonicalized
`current` target is skipped into `skipped_active` and never deleted;
every other candidate in the slice whose removal succeeds is deleted;
the counter counts exactly the paths actually removed. In particular no
deleted path canonicalizes to the active target, so the physical target
of `current` is never deleted, regardless of age. -/
theorem prune_old_releases_spec (fs : ReleasesFs) (d : String) (keep : Nat) :
    (fs.dirExists = false → prune_old_releases fs d keep = .ok ⟨0, [], []⟩) ∧
    (fs.dirExists = true → fs.readOk = true →
      (release_paths fs d).length ≤ keep →
      prune_old_releases fs d keep = .ok ⟨0, [], []⟩) ∧
    (List.Pairwise (fun a b => string_le a b = true) (release_paths fs d) ∧
      List.Perm (release_paths fs d) (release_candidates fs d)) ∧
    (fs.dirExists = true → fs.readOk = true → keep < (release_paths fs d).length →
      ∃ r, prune_old_releases fs d keep = .ok r ∧
        r.deleted_count = r.deleted.length ∧
        (∀ p ∈ r.deleted,
          p ∈ (release_paths fs d).take ((release_paths fs d).length - keep) ∧
          fs.removeOk p = true ∧ (fs.canonical p).getD p ≠ active_target fs) ∧
        (∀ p ∈ (release_paths fs d).take ((release_paths fs d).length - keep),
          ((fs.canonical p).getD p = active_target fs →
            p ∈ r.skipped_active ∧ p ∉ r.deleted) ∧
          ((fs.canonical p).getD p ≠ active_target fs → fs.removeOk p = true →
            p ∈ r.deleted))) := by
  refine ⟨?_, ?_, ?_, ?_⟩
  · intro h
    simp [prune_old_releases, h]
  · intro h1 h2 h3
    simp [prune_old_releases, h1, h2, h3]
  · exact ⟨sort_paths_pairwise _, sort_paths_perm _⟩
  · intro h1 h2 h3
    refine ⟨((release_paths fs d).take ((release_paths fs d).length - keep)).foldl
      (prune_step fs) ⟨0, [], []⟩, ?_, ?_, ?_, ?_⟩
    · simp [prune_old_releases, h1, h2, not_le.mpr h3]
    · exact (prune_foldl_spec fs _ ⟨0, [], []⟩).1 rfl
    · intro p hp
      rcases (prune_foldl_spec fs _ ⟨0, [], []⟩).2.1 p hp with h | h
      · cases h
      · exact h
    · intro p hp
      constructor
      · intro hact
        refine ⟨(prune_foldl_spec fs _ ⟨0, [], []⟩).2.2.2.2.1 p hp hact, ?_⟩
        intro hdel
        rcases (prune_foldl_spec fs _ ⟨0, [], []⟩).2.1 p hdel with h | h
        · cases h
        · exact h.2.2 hact
      · intro hact hrm
        exact (prune_foldl_spec fs _ ⟨0, [], []⟩).2.2.2.2.2 p hp hact hrm

/-- Witness for C4: on the concrete snapshot with releases 2024-01-01
(the `current` target), 2024-01-02 and 2024-01-03 and `keep_count = 1`,
the slice is the two oldest; the active 2024-01-01 is skipped, only
2024-01-02 is deleted, and the returned count equals the one actual
removal. -/
theorem prune_old_releases_spec_witness :
    (∃ r, prune_old_releases cex_prune_fs "/r" 1 = .ok r ∧
      r.deleted_count = r.deleted.length ∧
      (∀ p ∈ r.deleted,
        p ∈ (release_paths cex_prune_fs "/r").take
          ((release_paths cex_prune_fs "/r").length - 1) ∧
        cex_prune_fs.removeOk p = true ∧
        (cex_prune_fs.canonical p).getD p ≠ active_target cex_prune_fs) ∧
      (∀ p ∈ (release_paths cex_prune_fs "/r").take
          ((release_paths cex_prune_fs "/r").length - 1),
        ((cex_prune_fs.canonical p).getD p = active_target cex_prune_fs →
          p ∈ r.skipped_active ∧ p ∉ r.deleted) ∧
        ((cex_prune_fs.canonical p).getD p ≠ active_target cex_prune_fs →
          cex_prune_fs.removeOk p = true → p ∈ r.deleted))) ∧
    prune_old_releases cex_prune_fs "/r" 1 =
      .ok ⟨1, ["/r/20240102000000"], ["/r/20240101000000"]⟩ := by
  constructor
  · exact (prune_old_releases_spec cex_prune_fs "/r" 1).2.2.2 rfl rfl (by decide)
  · rfl

end Kari
